import Mathlib

/-!
# DraftPunk — verification of the projection / reconciliation core

A shallow embedding, in Lean 4, of the pure computational core of the
draftpunk application (a fantasy-football draft assistant):

* `normalizeName` / `applyAlias`   — name-matching subsystem
  (`src/renderer/src/utils/normalizeName.ts`, `src/renderer/src/data/aliases.ts`);
* `parseCSV`                       — ranking-file ingestion
  (`src/renderer/src/utils/csvParser.ts`);
* `getInjuryProbability`, `getInjuryImpact`, `applyInjuryAdjustment`
  (`src/renderer/src/utils/injuryHelpers.ts`);
* `pickBestBall`                   — the greedy Best-Ball lineup optimizer
  (`src/renderer/src/utils/positionHelpers.ts`);
* `fitLinear`                      — the PWOPR linear model
  (`src/renderer/src/utils/predict.ts`);
* `projectFutureWeek`, `pwoprComposite`, `pickOptimalLineupByValue`
  (`src/renderer/src/services/projectionEngine.ts`);
* `processPicks` / `fetchPicksCycle` — one poll cycle of the draft-feed
  reconciler (`src/renderer/src/services/sleeper.ts`);
* `mergeTaken` — the taken-set merge into the ranking list
  (`src/renderer/src/App.tsx`, `onPicksUpdate`).

Modelling conventions, used consistently below:

* JavaScript numbers are modelled as `ℚ` (the values involved are exact
  decimals; `Number.isFinite` is therefore always true in the model);
  sequential integer counters are `ℕ`.
* JavaScript strings are Lean `String`s; the handful of string methods the
  source uses (`trim`, `toLowerCase`, `split`, `padStart`, regex
  replacement on the ASCII classes actually occurring) are re-implemented
  below on `String.data` so that everything is executable.
* `x | null | undefined` is `Option`; the JavaScript truthiness tests the
  source performs are modelled field by field (`undefined`/`null`/`0`/`""`
  are falsy).
* A JavaScript `Set` accumulated by insertion is modelled as the `List` of
  inserted elements (only membership is consumed); in-place `for`-loop
  accumulation (`used.add`, `total +=`) is rendered as list append / sum.
* `Array.prototype.sort` with a numeric comparator is a stable sort and is
  modelled by `List.insertionSort` with the corresponding total preorder.
-/

namespace DraftPunk

/-! ## JavaScript string primitives -/

/-- The whitespace class of JavaScript's `trim` / regex `\s`
(ASCII part; the non-ASCII Unicode spaces never occur in the data
handled here). -/
def jsIsSpace (c : Char) : Bool :=
  c = ' ' || c = '\t' || c = '\n' || c = '\r' || c = '\x0b' || c = '\x0c'

/-- `String.prototype.trim`. -/
def jsTrim (s : String) : String :=
  ⟨(s.data.dropWhile jsIsSpace).reverse.dropWhile jsIsSpace |>.reverse⟩

/-- `String.prototype.toLowerCase`, on the ASCII letters (Lean's
`Char.toLower` lower-cases exactly `A`–`Z`, which is all the source relies
on: every character outside `[a-z0-9\s]` is discarded right after). -/
def jsToLower (s : String) : String :=
  ⟨s.data.map Char.toLower⟩

/-- `String.prototype.toUpperCase` (ASCII). -/
def jsToUpper (s : String) : String :=
  ⟨s.data.map Char.toUpper⟩

/-- One character of the class `[a-z0-9\s]` kept by
`normalizeName`'s regex replacement. -/
def isKeptChar (c : Char) : Bool :=
  ('a' ≤ c && c ≤ 'z') || ('0' ≤ c && c ≤ '9') || jsIsSpace c

/-- Helper for `collapseSpaces`: `inRun` records whether the previous
character belonged to a whitespace run already emitted as `' '`. -/
def collapseAux (inRun : Bool) : List Char → List Char
  | [] => []
  | c :: cs =>
    if jsIsSpace c then
      if inRun then collapseAux true cs else ' ' :: collapseAux true cs
    else c :: collapseAux false cs

/-- `replace(/\s+/g, ' ')`: every maximal run of whitespace becomes one
space. -/
def collapseSpaces (l : List Char) : List Char :=
  collapseAux false l

/-- `String.prototype.split(sep)` for a single-character separator
(as in `normalized.split(' ')`): always returns at least one (possibly
empty) field. -/
def splitChar (sep : Char) : List Char → List (List Char)
  | [] => [[]]
  | c :: cs =>
    if c = sep then [] :: splitChar sep cs
    else match splitChar sep cs with
      | [] => [[c]]
      | w :: ws => (c :: w) :: ws

/-- Interleave a separator back (`Array.prototype.join(' ')`). -/
def joinChar (sep : Char) : List (List Char) → List Char
  | [] => []
  | [w] => w
  | w :: ws => w ++ sep :: joinChar sep ws

/-! ## NameMatcher (`utils/normalizeName.ts`, `data/aliases.ts`) -/

/-- The suffix tokens dropped by `normalizeName`. -/
def suffixes : List String := ["jr", "sr", "ii", "iii", "iv", "v"]

/-- `normalizeName` (`utils/normalizeName.ts`): guard `if (!name) return ''`,
then lowercase → trim → replace `[^a-z0-9\s]` by a space → collapse runs of
whitespace → trim → drop a final token that is one of `suffixes`. -/
def normalizeName (name : String) : String :=
  if name = "" then ""
  else
    let l₁ := (jsToLower name).data
    let l₂ := ((jsTrim ⟨l₁⟩).data).map (fun c => if isKeptChar c then c else ' ')
    let normalized := jsTrim ⟨collapseSpaces l₂⟩
    let words := (splitChar ' ' normalized.data).map (fun w => String.mk w)
    let lastWord := words.getLastD ""
    if suffixes.contains lastWord then
      jsTrim ⟨joinChar ' ' ((words.dropLast).map String.data)⟩
    else normalized

/-- `normalizeName` as invoked on a possibly `null`/`undefined` argument:
the guard `if (!name) return ''` also catches those. -/
def normalizeNameOpt (name : Option String) : String :=
  match name with
  | none => ""
  | some s => normalizeName s

/-- The static alias table `nameAliases` (`data/aliases.ts`), in source
order; the object literal has no duplicate keys, so first-match lookup
agrees with JavaScript property lookup. -/
def nameAliases : List (String × String) :=
  [ ("d k metcalf", "dk metcalf"),
    ("dak metcalf", "dk metcalf"),
    ("gabe davis", "gabriel davis"),
    ("ken walker", "kenneth walker"),
    ("kenny walker", "kenneth walker"),
    ("aj brown", "a j brown"),
    ("a j brown", "aj brown"),
    ("cj stroud", "c j stroud"),
    ("c j stroud", "cj stroud"),
    ("dk metcalf", "d k metcalf"),
    ("brian robinson", "brian robinson"),
    ("brob", "brian robinson"),
    ("bijan", "bijan robinson"),
    ("breece", "breece hall"),
    ("amon ra st brown", "amonra st brown"),
    ("amon ra stbrown", "amonra st brown"),
    ("devonta smith", "devonta smith"),
    ("de vonta smith", "devonta smith"),
    ("devon achane", "de von achane"),
    ("deandre hopkins", "de andre hopkins"),
    ("deandre swift", "de andre swift"),
    ("deebo samuel", "deebo samuel"),
    ("dj moore", "d j moore"),
    ("d j moore", "dj moore"),
    ("jk dobbins", "j k dobbins"),
    ("j k dobbins", "jk dobbins"),
    ("tj hockenson", "t j hockenson"),
    ("t j hockenson", "tj hockenson") ]

/-- `applyAlias` (`data/aliases.ts`): `nameAliases[normalizedName] ||
normalizedName` — a present key whose value is falsy (the empty string)
would fall back to the input, exactly as `||` does. -/
def applyAlias (normalizedName : String) : String :=
  match nameAliases.lookup normalizedName with
  | some v => if v = "" then normalizedName else v
  | none => normalizedName

/-! ## InjuryModel (`utils/injuryHelpers.ts`) -/

/-- `getInjuryProbability`: play-probability lookup;
`probabilities[injuryStatus || ''] ?? 1.0`. -/
def getInjuryProbability (injuryStatus : Option String) : ℚ :=
  let s := injuryStatus.getD ""
  if s = "IR" then 0
  else if s = "Out" then 0
  else if s = "Doubtful" then 15/100
  else if s = "Questionable" then 65/100
  else if s = "Probable" then 9/10
  else 1

/-- `getInjuryImpact`: performance-impact lookup;
`impactFactors[injuryStatus || ''] ?? 1.0`. -/
def getInjuryImpact (injuryStatus : Option String) : ℚ :=
  let s := injuryStatus.getD ""
  if s = "Doubtful" then 6/10
  else if s = "Questionable" then 85/100
  else if s = "Probable" then 95/100
  else 1

/-- `applyInjuryAdjustment`. -/
def applyInjuryAdjustment (projection : ℚ) (injuryStatus : Option String) : ℚ :=
  projection * getInjuryProbability injuryStatus * getInjuryImpact injuryStatus

/-! ## StatisticalHelpers (`utils/mathHelpers.ts`), the part used below -/

/-- `getSampleSizeConfidence`. -/
def getSampleSizeConfidence (sampleSize : ℕ) : ℚ :=
  if sampleSize ≥ 8 then 1
  else if sampleSize ≥ 5 then 9/10
  else if sampleSize ≥ 3 then 75/100
  else if sampleSize ≥ 1 then 5/10
  else 25/100

/-! ## CSV ingestion (`utils/csvParser.ts`) and the ranking rows -/

/-- `RankingRow` (`types.ts`): `tier` is `string | number` in the source but
only ever holds the trimmed CSV cell, so it is a `String` here;
`manualOverride?: boolean` is optional and modelled as `Option Bool`
(`none` = never set). -/
structure RankingRow where
  name : String
  tier : String
  position : String
  assetType : Option String
  taken : Bool
  manualOverride : Option Bool
  normalizedName : String
deriving DecidableEq, Repr

/-- Character scanner of `parseCSVLine`: a double quote toggles `inQuotes`,
a comma outside quotes ends the current value, anything else is
accumulated (`current` is kept reversed). -/
def parseCSVLineAux (inQuotes : Bool) (current : List Char) : List Char → List (List Char)
  | [] => [current.reverse]
  | c :: cs =>
    if c = '"' then parseCSVLineAux (!inQuotes) current cs
    else if c = ',' && !inQuotes then current.reverse :: parseCSVLineAux inQuotes [] cs
    else parseCSVLineAux inQuotes (c :: current) cs

/-- `replace(/^"|"$/g, '')`: one leading and one trailing double quote are
removed (a lone `"` is consumed by the leading alternative). -/
def stripOuterQuotes (s : String) : String :=
  let l₁ := match s.data with
    | '"' :: rest => rest
    | l => l
  if l₁.getLast? = some '"' then ⟨l₁.dropLast⟩ else ⟨l₁⟩

/-- `parseCSVLine` (`utils/csvParser.ts`): scan, then
`values.map(v => v.trim().replace(/^"|"$/g, ''))`. -/
def parseCSVLine (line : String) : List String :=
  (parseCSVLineAux false [] line.data).map (fun v => stripOuterQuotes (jsTrim ⟨v⟩))

/-- `content.split(/\r?\n/)`: `\r\n` is one separator, a lone `\n` is a
separator, a lone `\r` is not. -/
def splitNewlines : List Char → List (List Char)
  | [] => [[]]
  | '\r' :: '\n' :: cs => [] :: splitNewlines cs
  | '\n' :: cs => [] :: splitNewlines cs
  | c :: cs =>
    match splitNewlines cs with
    | [] => [[c]]
    | w :: ws => (c :: w) :: ws

/-- The key under which a header cell is stored in the header map:
`header.toLowerCase().trim()`. -/
def headerKey (h : String) : String := jsTrim (jsToLower h)

/-- `headerMap.get`: the map is filled left to right with `set`, so a later
duplicate header overwrites an earlier one — the stored index is the last
occurrence. -/
def headerMapGet (headers : List String) (key : String) : Option ℕ :=
  ((headers.enum.map (fun p => (headerKey p.2, p.1))).reverse).lookup key

/-- `findHeaderIndex`: first of `possibleNames` present in the header map
(`-1` of the source is `none` here). -/
def findHeaderIndex (headers : List String) (possibleNames : List String) : Option ℕ :=
  possibleNames.findSome? (fun n => headerMapGet headers (jsToLower n))

/-- The body of `parseCSV`'s row loop: `none` both when the line has too few
fields (`values.length` must exceed each required index) and when the name
cell trims to the empty string. -/
def parseRow (nameIdx tierIdx posIdx : ℕ) (assetTypeIdx : Option ℕ)
    (line : String) : Option RankingRow :=
  let values := parseCSVLine (jsTrim line)
  if values.length > nameIdx && values.length > tierIdx && values.length > posIdx then
    let name := jsTrim (values.getD nameIdx "")
    if name ≠ "" then
      some { name := name
             tier := jsTrim (values.getD tierIdx "")
             position := jsTrim (values.getD posIdx "")
             assetType := assetTypeIdx.bind (fun i => (values.get? i).map jsTrim)
             taken := false
             manualOverride := none
             normalizedName := applyAlias (normalizeName name) }
    else none
  else none

/-- Equality of `Except` results is decidable componentwise (used only to
evaluate `parseCSV` on concrete inputs). -/
instance {ε α : Type} [DecidableEq ε] [DecidableEq α] : DecidableEq (Except ε α) := fun a b =>
  match a, b with
  | .error e, .error f =>
    if h : e = f then isTrue (by rw [h]) else isFalse (fun hh => h (by injection hh))
  | .ok x, .ok y =>
    if h : x = y then isTrue (by rw [h]) else isFalse (fun hh => h (by injection hh))
  | .error _, .ok _ => isFalse (fun hh => by injection hh)
  | .ok _, .error _ => isFalse (fun hh => by injection hh)

/-- The error message of `parseCSV`'s required-column check. -/
def missingColumnsMsg : String := "CSV must contain columns: name, tier, and pos/position"

/-- The `lines` local of `parseCSV`:
`content.split(/\r?\n/).filter(line => line.trim())`. -/
def csvLines (content : String) : List String :=
  ((splitNewlines content.data).map (fun l => String.mk l)).filter
    (fun l => jsTrim l ≠ "")

/-- `parseCSV` (`utils/csvParser.ts`): split into lines, drop blank lines,
read the header, resolve the required and optional column indices, fail on
a missing required column, else run the row loop. `throw` is modelled as
`Except.error`. -/
def parseCSV (content : String) : Except String (List RankingRow) :=
  match csvLines content with
  | [] => .ok []
  | headerLine :: dataLines =>
    let headers := parseCSVLine headerLine
    match findHeaderIndex headers ["name"], findHeaderIndex headers ["tier"],
        findHeaderIndex headers ["pos", "position"] with
    | some nameIdx, some tierIdx, some posIdx =>
      .ok (dataLines.filterMap
        (parseRow nameIdx tierIdx posIdx (findHeaderIndex headers ["assettype", "asset_type"])))
    | _, _, _ => .error missingColumnsMsg

/-! ## Reconciliation merge (`App.tsx`, `onPicksUpdate`) -/

/-- One merge of a taken-name set into the ranking list (`App.tsx`,
`onPicksUpdate` callback): a row whose `manualOverride` is truthy is
returned unchanged; every other row gets
`taken := pickedNames.has(normalizedName)`. -/
def mergeTaken (pickedNames : List String) (rows : List RankingRow) : List RankingRow :=
  rows.map (fun ranking =>
    if ranking.manualOverride = some true then ranking
    else { ranking with taken := pickedNames.contains ranking.normalizedName })

/-- Any number of successive reconciliation cycles, each with its own
taken-name set. -/
def mergeMany (sets : List (List String)) (rows : List RankingRow) : List RankingRow :=
  sets.foldl (fun rs s => mergeTaken s rs) rows

/-! ## PositionModel and the Best-Ball optimizer (`utils/positionHelpers.ts`) -/

/-- A Best-Ball candidate (`PlayerProjection` of `types.ts` as consumed by
`pickBestBall`: identity, position, projected points). -/
structure PlayerProjection where
  player_id : String
  pos : String
  proj : ℚ
deriving DecidableEq, Repr

/-- `byProjectionDesc`: the comparator `(a, b) => b.proj - a.proj` orders by
projection, highest first; as a (total, transitive) preorder it is
`b.proj ≤ a.proj`, and the stable JavaScript `sort` is
`List.insertionSort` with it. -/
def projDesc (a b : PlayerProjection) : Prop := b.proj ≤ a.proj

instance : DecidableRel projDesc := fun a b => inferInstanceAs (Decidable (b.proj ≤ a.proj))

instance : IsTotal PlayerProjection projDesc := ⟨fun a b => le_total b.proj a.proj⟩

instance : IsTrans PlayerProjection projDesc :=
  ⟨fun _ _ _ h₁ h₂ => le_trans h₂ h₁⟩

/-- `FLEX_MAP` (`utils/positionHelpers.ts`): eligible positions of each
flexible slot. -/
def FLEX_MAP (slot : String) : List String :=
  if slot = "WRRB" then ["WR", "RB"]
  else if slot = "WRRBTE" then ["WR", "RB", "TE"]
  else if slot = "FLEX" then ["WR", "RB", "TE"]
  else if slot = "SUPER_FLEX" then ["QB", "WR", "RB", "TE"]
  else []

/-- The pool of one `takeTop` step of `pickBestBall`: unused eligible
candidates, stably sorted by projection descending, first `n`. -/
def takeTopPool (points : List PlayerProjection) (used : List String)
    (elig : String → Bool) (n : ℕ) : List PlayerProjection :=
  ((points.filter (fun p => !used.contains p.player_id && elig p.pos)).insertionSort
    projDesc).take n

/-- One `takeTop` step of `pickBestBall`, on the state
(`used` set, running `total`): the pool's ids are added to `used` and its
projections to `total`. -/
def takeTop (points : List PlayerProjection) (elig : String → Bool) (n : ℕ)
    (st : List String × ℚ) : List String × ℚ :=
  let pool := takeTopPool points st.1 elig n
  (st.1 ++ pool.map (fun p => p.player_id), st.2 + (pool.map (fun p => p.proj)).sum)

/-- The slot-processing sequence of `pickBestBall`: exact slots in the
order QB, RB, WR, TE, K, DST, then flexible slots WRRB, WRRBTE, FLEX,
SUPER_FLEX, each paired with its count. -/
def bestBallSteps (slots : String → ℕ) : List ((String → Bool) × ℕ) :=
  (["QB", "RB", "WR", "TE", "K", "DST"].map (fun s => ((fun p => p == s), slots s))) ++
    (["WRRB", "WRRBTE", "FLEX", "SUPER_FLEX"].map
      (fun s => ((fun p => (FLEX_MAP s).contains p), slots s)))

/-- `pickBestBall` (`utils/positionHelpers.ts`): run the steps over the
empty initial state (a zero-count slot is skipped by `if (!n) continue`)
and return the accumulated total. -/
def pickBestBall (points : List PlayerProjection) (slots : String → ℕ) : ℚ :=
  ((bestBallSteps slots).foldl
    (fun st se => if se.2 = 0 then st else takeTop points se.1 se.2 st) ([], 0)).2

/-! ## Power Rankings optimizer (`services/projectionEngine.ts`,
`pickOptimalLineupByValue`) -/

/-- A Power-Rankings candidate: `{ player_id; pos; value; name }`. -/
structure PRPlayer where
  player_id : String
  pos : String
  value : ℚ
  name : String
deriving DecidableEq, Repr

/-- The comparator `(a, b) => b.value - a.value` as a total preorder. -/
def valueDesc (a b : PRPlayer) : Prop := b.value ≤ a.value

instance : DecidableRel valueDesc := fun a b => inferInstanceAs (Decidable (b.value ≤ a.value))

instance : IsTotal PRPlayer valueDesc := ⟨fun a b => le_total b.value a.value⟩

instance : IsTrans PRPlayer valueDesc :=
  ⟨fun _ _ _ h₁ h₂ => le_trans h₂ h₁⟩

/-- The state threaded through `pickOptimalLineupByValue`: the `used` set,
`totalValue`, and the four keys of `positionalValues`. -/
structure PRState where
  used : List String
  totalValue : ℚ
  qb : ℚ
  rb : ℚ
  wr : ℚ
  te : ℚ
deriving DecidableEq, Repr

/-- The pool of one `takeTop` step of `pickOptimalLineupByValue`. -/
def prPool (players : List PRPlayer) (used : List String)
    (elig : String → Bool) (n : ℕ) : List PRPlayer :=
  ((players.filter (fun p => !used.contains p.player_id && elig p.pos)).insertionSort
    valueDesc).take n

/-- The per-position contribution of a pool
(`positionalValues[p.pos] += p.value`, only for the keys QB/RB/WR/TE that
are present in the record, and only when `countTowardPositional`). -/
def prPositionalAdd (countTowardPositional : Bool) (pool : List PRPlayer)
    (posCode : String) : ℚ :=
  if countTowardPositional then
    ((pool.filter (fun p => p.pos == posCode)).map (fun p => p.value)).sum
  else 0

/-- The inner `takeTop` of `pickOptimalLineupByValue`. -/
def prTakeTop (players : List PRPlayer) (elig : String → Bool) (n : ℕ)
    (countTowardPositional : Bool) (st : PRState) : PRState :=
  let pool := prPool players st.used elig n
  { used := st.used ++ pool.map (fun p => p.player_id)
    totalValue := st.totalValue + (pool.map (fun p => p.value)).sum
    qb := st.qb + prPositionalAdd countTowardPositional pool "QB"
    rb := st.rb + prPositionalAdd countTowardPositional pool "RB"
    wr := st.wr + prPositionalAdd countTowardPositional pool "WR"
    te := st.te + prPositionalAdd countTowardPositional pool "TE" }

/-- The inner `takeTopWithQBTracking` of `pickOptimalLineupByValue`: as
`prTakeTop` but only QB values are tracked positionally. -/
def prTakeTopQBTracking (players : List PRPlayer) (elig : String → Bool) (n : ℕ)
    (st : PRState) : PRState :=
  let pool := prPool players st.used elig n
  { used := st.used ++ pool.map (fun p => p.player_id)
    totalValue := st.totalValue + (pool.map (fun p => p.value)).sum
    qb := st.qb + ((pool.filter (fun p => p.pos == "QB")).map (fun p => p.value)).sum
    rb := st.rb
    wr := st.wr
    te := st.te }

/-- `pickOptimalLineupByValue` (`services/projectionEngine.ts`): exact
slots QB, RB, WR, TE, then `FLEX`, `WRRB`, `WRRBTE`, then `SUPER_FLEX` —
note the flexible-slot order of the source, FLEX before the narrower WRRB
and WRRBTE. A slot is processed only when its count is truthy (nonzero). -/
def pickOptimalLineupByValue (players : List PRPlayer) (slots : String → ℕ) : PRState :=
  let st0 : PRState := ⟨[], 0, 0, 0, 0, 0⟩
  let st1 := if slots "QB" = 0 then st0 else
    prTakeTop players (fun p => p == "QB") (slots "QB") true st0
  let st2 := if slots "RB" = 0 then st1 else
    prTakeTop players (fun p => p == "RB") (slots "RB") true st1
  let st3 := if slots "WR" = 0 then st2 else
    prTakeTop players (fun p => p == "WR") (slots "WR") true st2
  let st4 := if slots "TE" = 0 then st3 else
    prTakeTop players (fun p => p == "TE") (slots "TE") true st3
  let st5 := if slots "FLEX" = 0 then st4 else
    prTakeTop players (fun p => (FLEX_MAP "FLEX").contains p) (slots "FLEX") false st4
  let st6 := if slots "WRRB" = 0 then st5 else
    prTakeTop players (fun p => (FLEX_MAP "WRRB").contains p) (slots "WRRB") false st5
  let st7 := if slots "WRRBTE" = 0 then st6 else
    prTakeTop players (fun p => (FLEX_MAP "WRRBTE").contains p) (slots "WRRBTE") false st6
  if slots "SUPER_FLEX" = 0 then st7 else
    prTakeTopQBTracking players (fun p => (FLEX_MAP "SUPER_FLEX").contains p)
      (slots "SUPER_FLEX") st7

/-- The candidate records of the two optimizers carry the same identity,
position and number (`value` read as `proj`). -/
def toProj (p : PRPlayer) : PlayerProjection := ⟨p.player_id, p.pos, p.value⟩

/-! ## Best-Ball future-week projection (`services/projectionEngine.ts`,
`getBestBallProjections`, per-player body of the future-week loop) -/

/-- `getPositionAverage` (`utils/positionHelpers.ts`). -/
def getPositionAverage (position : String) : ℚ :=
  if position = "QB" then 18
  else if position = "RB" then 12
  else if position = "WR" then 11
  else if position = "TE" then 9
  else if position = "K" then 8
  else if position = "DST" then 8
  else 10

/-- One player's projected points for one future week
(`getBestBallProjections`, the body of the future-week loop after the
position/active/bye guards): `sleeperProj` is the feed value after
`|| null` (so never `some 0`), `nonZeroCount` the number of positive past
performances. `continue` for an Out/IR player without a feed projection is
`none`; otherwise the blend, the 0.12 regression to the position mean, the
conditional injury multiplication, and the clamp at 0. -/
def projectFutureWeek (pos : String) (sleeperProj : Option ℚ)
    (injuryStatus : Option String) (historicalAvg trend : ℚ)
    (nonZeroCount weeksOut : ℕ) : Option ℚ :=
  let injuryProb := getInjuryProbability injuryStatus
  let injuryImpact := getInjuryImpact injuryStatus
  if injuryProb = 0 ∧ sleeperProj = none then none
  else
    let sampleConfidence := getSampleSizeConfidence nonZeroCount
    let projectedPoints : ℚ :=
      match sleeperProj with
      | some sp =>
        if historicalAvg > 0 then
          35/100 * sampleConfidence * historicalAvg + 6/10 * sp
            + 5/100 * (trend * weeksOut)
        else sp
      | none =>
        if historicalAvg > 0 then historicalAvg + trend * weeksOut * (2/10) else 0
    let positionMean := getPositionAverage pos
    let regressed := projectedPoints + 12/100 * (positionMean - projectedPoints)
    let adjusted :=
      match sleeperProj with
      | some sp =>
        if sp > 0 ∧ injuryProb = 0 then regressed
        else regressed * injuryProb * injuryImpact
      | none => regressed * injuryProb * injuryImpact
    some (max 0 adjusted)

/-- The projection the future-week loop computes before its injury step
(blend of history, feed and trend, then the 0.12 regression to the
position mean) — split out to state what the injury step does to it. -/
def bestBallPreInjury (pos : String) (sleeperProj : Option ℚ)
    (historicalAvg trend : ℚ) (nonZeroCount weeksOut : ℕ) : ℚ :=
  let sampleConfidence := getSampleSizeConfidence nonZeroCount
  let projectedPoints : ℚ :=
    match sleeperProj with
    | some sp =>
      if historicalAvg > 0 then
        35/100 * sampleConfidence * historicalAvg + 6/10 * sp
          + 5/100 * (trend * weeksOut)
      else sp
    | none =>
      if historicalAvg > 0 then historicalAvg + trend * weeksOut * (2/10) else 0
  projectedPoints + 12/100 * (getPositionAverage pos - projectedPoints)

/-! ## WR/TE composite (`services/projectionEngine.ts`,
`getPWOPRProjections`) -/

/-- `mapWoprToPPG`: the 11-segment piecewise-linear WOPR → PPG curve. -/
def mapWoprToPPG (wopr : ℚ) : ℚ :=
  if wopr ≤ 1/10 then wopr * 20
  else if wopr ≤ 2/10 then 2 + (wopr - 1/10) * 20
  else if wopr ≤ 3/10 then 4 + (wopr - 2/10) * 20
  else if wopr ≤ 4/10 then 6 + (wopr - 3/10) * 20
  else if wopr ≤ 5/10 then 8 + (wopr - 4/10) * 20
  else if wopr ≤ 6/10 then 10 + (wopr - 5/10) * 20
  else if wopr ≤ 7/10 then 12 + (wopr - 6/10) * 20
  else if wopr ≤ 8/10 then 14 + (wopr - 7/10) * 20
  else if wopr ≤ 9/10 then 16 + (wopr - 8/10) * 20
  else if wopr ≤ 1 then 18 + (wopr - 9/10) * 20
  else min (20 + (wopr - 1) * 10) 30

/-- JavaScript truthiness of an optional number (`undefined`, `null` and
`0` are falsy). -/
def truthyOpt (x : Option ℚ) : Bool :=
  match x with
  | some v => v != 0
  | none => false

/-- The pre-injury PWOPR composite (`getPWOPRProjections`, the `map` body
up to the injury adjustment): inputs are the row's `wopr`, the feed
projection `fantasyProjection`, the RTM `overall`, and `priorYearPPG`.
The numerator collects the components whose source value is truthy
(`prior` is pre-filtered to positive values); the denominator starts at
`0.4` unconditionally and adds the weights of the other present
components, and the bare `wopr_ppg` fallback fires only when the
component list is empty. -/
def pwoprComposite (wopr : ℚ) (fantasyProjection overall priorYearPPG : Option ℚ) : ℚ :=
  let wopr_ppg := mapWoprToPPG wopr
  let ovr_ppg : Option ℚ := overall.map (fun o => o / 100 * 20)
  let prior : Option ℚ :=
    match priorYearPPG with
    | some p => if p > 0 then some p else none
    | none => none
  let components : List ℚ :=
    (match fantasyProjection with
      | some f => if f != 0 then [f * (4/10)] else []
      | none => []) ++
    (if wopr_ppg > 0 then [wopr_ppg * (3/10)] else []) ++
    (match ovr_ppg with
      | some o => if o != 0 then [o * (2/10)] else []
      | none => []) ++
    (match prior with
      | some p => [p * (1/10)]
      | none => [])
  if components ≠ [] then
    components.sum /
      (4/10 + (if wopr_ppg > 0 then 3/10 else 0)
        + (if truthyOpt ovr_ppg then 2/10 else 0)
        + (if truthyOpt prior then 1/10 else 0))
  else wopr_ppg

/-- The composite after the injury adjustment
(`pwopr = pwopr * injuryProb * injuryImpact`). -/
def pwoprWithInjury (wopr : ℚ) (fantasyProjection overall priorYearPPG : Option ℚ)
    (injuryStatus : Option String) : ℚ :=
  pwoprComposite wopr fantasyProjection overall priorYearPPG
    * getInjuryProbability injuryStatus * getInjuryImpact injuryStatus

/-- What the spec says the blend should be: divide by the sum of the
weights of exactly the present components (spec §4.6: "fixed weights
renormalized to only the present ones"). Stated for comparison with
`pwoprComposite`. -/
def pwoprCompositeSpec (wopr : ℚ) (fantasyProjection overall priorYearPPG : Option ℚ) : ℚ :=
  let wopr_ppg := mapWoprToPPG wopr
  let ovr_ppg : Option ℚ := overall.map (fun o => o / 100 * 20)
  let prior : Option ℚ :=
    match priorYearPPG with
    | some p => if p > 0 then some p else none
    | none => none
  let components : List ℚ :=
    (match fantasyProjection with
      | some f => if f != 0 then [f * (4/10)] else []
      | none => []) ++
    (if wopr_ppg > 0 then [wopr_ppg * (3/10)] else []) ++
    (match ovr_ppg with
      | some o => if o != 0 then [o * (2/10)] else []
      | none => []) ++
    (match prior with
      | some p => [p * (1/10)]
      | none => [])
  if components ≠ [] then
    components.sum /
      ((if truthyOpt fantasyProjection then 4/10 else 0)
        + (if wopr_ppg > 0 then 3/10 else 0)
        + (if truthyOpt ovr_ppg then 2/10 else 0)
        + (if truthyOpt prior then 1/10 else 0))
  else wopr_ppg

/-! ## Draft-feed poll cycle (`services/sleeper.ts`, `fetchPicks`) -/

/-- The optional `metadata` object of a feed pick
(`SleeperDraftPicksResponse`). -/
structure PickMetadata where
  first_name : Option String
  last_name : Option String
  player_name : Option String
  position : Option String
  team : Option String
deriving DecidableEq, Repr

/-- One pick object of the feed snapshot. -/
structure SleeperPickIn where
  pick_no : ℕ
  player_id : String
  picked_by : String
  metadata : Option PickMetadata
deriving DecidableEq, Repr

/-- `DraftPick` (`types.ts`): one row of the ordered pick-display list. -/
structure DraftPick where
  pickNo : ℕ
  pickDisplay : String
  playerName : String
  position : String
  team : String
  pickedBy : String
  isMyPick : Bool
deriving DecidableEq, Repr

/-- JavaScript truthiness of an optional string (`undefined`, `null` and
`""` are falsy). -/
def truthyStr (x : Option String) : Bool :=
  match x with
  | some s => s != ""
  | none => false

/-- `extractPlayerName` (`services/sleeper.ts`): prefer
`first_name + " " + last_name` when both are truthy, fall back to a truthy
`player_name`, else `null`. -/
def extractPlayerName (pick : SleeperPickIn) : Option String :=
  match pick.metadata with
  | none => none
  | some m =>
    if truthyStr m.first_name && truthyStr m.last_name then
      some (m.first_name.getD "" ++ " " ++ m.last_name.getD "")
    else if truthyStr m.player_name then m.player_name
    else none

/-- `pick.metadata?.position?.toUpperCase() || ''`. -/
def posOf (pick : SleeperPickIn) : String :=
  jsToUpper ((pick.metadata.bind (fun m => m.position)).getD "")

/-- `Math.ceil(a / b)` for natural `a` and positive natural `b`. -/
def ceilDivNat (a b : ℕ) : ℕ := (a + b - 1) / b

/-- `String.prototype.padStart(2, '0')`. -/
def padStart2 (s : String) : String :=
  if s.length = 0 then "00" else if s.length = 1 then "0" ++ s else s

/-- The display name synthesized for the `kickerCount`-th kicker pick in
rookie-pick mode: `"2026 <round>.<pickInRound padded to 2>"` with
`round = Math.ceil(kickerCount / leagueSize)` and
`pickInRound = ((kickerCount - 1) % leagueSize) + 1`. -/
def rookiePickName (leagueSize kickerCount : ℕ) : String :=
  "2026 " ++ toString (ceilDivNat kickerCount leagueSize) ++ "."
    ++ padStart2 (toString ((kickerCount - 1) % leagueSize + 1))

/-- `formatPickDisplay` (`services/sleeper.ts`):
`round.pickInRound` from the raw pick number. -/
def formatPickDisplay (leagueSize pickNo : ℕ) : String :=
  toString (ceilDivNat pickNo leagueSize) ++ "."
    ++ padStart2 (toString ((pickNo - 1) % leagueSize + 1))

/-- The loop body of `fetchPicks` over the sorted snapshot, with the
kicker counter threaded through: returns the inserted taken-set names (in
insertion order) and the `draftPicks` display list. A kicker pick in
rookie-pick mode synthesizes a rookie-pick name (added to the taken-set
normalized, without alias) and a `position: 'PICK'` display row; any other
pick contributes only when a player name can be extracted, normalized and
alias-mapped. -/
def processPicks (rookiePickMode : Bool) (leagueSize : ℕ) (kickerCount : ℕ) :
    List SleeperPickIn → List String × List DraftPick
  | [] => ([], [])
  | pick :: rest =>
    let position := posOf pick
    if rookiePickMode && position == "K" then
      let k := kickerCount + 1
      let rookieName := rookiePickName leagueSize k
      let out := processPicks rookiePickMode leagueSize k rest
      (normalizeName rookieName :: out.1,
        { pickNo := pick.pick_no
          pickDisplay := formatPickDisplay leagueSize pick.pick_no
          playerName := rookieName
          position := "PICK"
          team := ""
          pickedBy := pick.picked_by
          isMyPick := false } :: out.2)
    else
      match extractPlayerName pick with
      | some playerName =>
        let out := processPicks rookiePickMode leagueSize kickerCount rest
        (applyAlias (normalizeName playerName) :: out.1,
          { pickNo := pick.pick_no
            pickDisplay := formatPickDisplay leagueSize pick.pick_no
            playerName := playerName
            position := position
            team := (pick.metadata.bind (fun m => m.team)).getD ""
            pickedBy := pick.picked_by
            isMyPick := false } :: out.2)
      | none => processPicks rookiePickMode leagueSize kickerCount rest

/-- The comparator `(a, b) => (a.pick_no || 0) - (b.pick_no || 0)` as a
total preorder (ascending pick number). -/
def pickNoLe (a b : SleeperPickIn) : Prop := a.pick_no ≤ b.pick_no

instance : DecidableRel pickNoLe := fun a b => inferInstanceAs (Decidable (a.pick_no ≤ b.pick_no))

instance : IsTotal SleeperPickIn pickNoLe := ⟨fun a b => Nat.le_total a.pick_no b.pick_no⟩

instance : IsTrans SleeperPickIn pickNoLe :=
  ⟨fun _ _ _ h₁ h₂ => Nat.le_trans h₁ h₂⟩

/-- One successful poll cycle of `fetchPicks`: sort the snapshot by pick
number (stable), then run the extraction loop with the kicker counter
rebuilt from `0`. -/
def fetchPicksCycle (rookiePickMode : Bool) (leagueSize : ℕ)
    (picks : List SleeperPickIn) : List String × List DraftPick :=
  processPicks rookiePickMode leagueSize 0 (picks.insertionSort pickNoLe)

/-! ## PWOPR linear model (`utils/predict.ts`, `fitLinear`) -/

/-- The result record of `fitLinear`. -/
structure Fit where
  a : ℚ
  b : ℚ
  r2 : ℚ
  n : ℕ
deriving DecidableEq, Repr

/-- `clamp` (`utils/predict.ts`). -/
def clampQ (x lo hi : ℚ) : ℚ := max lo (min hi x)

/-- `sumX` of `fitLinear`'s accumulation loop. The loop reads `xs[i]` and
`ys[i]` for `i < xs.length` and skips a pair when either is not finite;
an index beyond `ys.length` reads `undefined`, which is not finite, so the
sums range over `xs.zip ys` (finite rationals are the model of the
numbers, so no other pair is skipped). -/
def fitSumX (xs ys : List ℚ) : ℚ := ((xs.zip ys).map (fun p => p.1)).sum

/-- `sumY` of `fitLinear`. -/
def fitSumY (xs ys : List ℚ) : ℚ := ((xs.zip ys).map (fun p => p.2)).sum

/-- `sumXY` of `fitLinear`. -/
def fitSumXY (xs ys : List ℚ) : ℚ := ((xs.zip ys).map (fun p => p.1 * p.2)).sum

/-- `sumXX` of `fitLinear`. -/
def fitSumXX (xs ys : List ℚ) : ℚ := ((xs.zip ys).map (fun p => p.1 * p.1)).sum

/-- `sumYY` of `fitLinear`. -/
def fitSumYY (xs ys : List ℚ) : ℚ := ((xs.zip ys).map (fun p => p.2 * p.2)).sum

/-- `denom = n * sumXX - sumX * sumX`, with `n = xs.length`. -/
def fitDenom (xs ys : List ℚ) : ℚ :=
  (xs.length : ℚ) * fitSumXX xs ys - fitSumX xs ys * fitSumX xs ys

/-- The slope `b = (n * sumXY - sumX * sumY) / denom`. -/
def fitB (xs ys : List ℚ) : ℚ :=
  ((xs.length : ℚ) * fitSumXY xs ys - fitSumX xs ys * fitSumY xs ys) / fitDenom xs ys

/-- The intercept `a = (sumY - b * sumX) / n`. -/
def fitA (xs ys : List ℚ) : ℚ :=
  (fitSumY xs ys - fitB xs ys * fitSumX xs ys) / (xs.length : ℚ)

/-- `ssTot = sumYY - sumY * sumY / n`. -/
def fitSsTot (xs ys : List ℚ) : ℚ :=
  fitSumYY xs ys - fitSumY xs ys * fitSumY xs ys / (xs.length : ℚ)

/-- `ssRes = ssTot - b * (sumXY - sumX * sumY / n)`. -/
def fitSsRes (xs ys : List ℚ) : ℚ :=
  fitSsTot xs ys - fitB xs ys * (fitSumXY xs ys - fitSumX xs ys * fitSumY xs ys / (xs.length : ℚ))

/-- `r2`: `1 - ssRes / ssTot` clamped to [0, 1] when `ssTot > 1e-9`, else
0. -/
def fitR2 (xs ys : List ℚ) : ℚ :=
  if fitSsTot xs ys > 1/1000000000 then clampQ (1 - fitSsRes xs ys / fitSsTot xs ys) 0 1 else 0

/-- `fitLinear` (`utils/predict.ts`): `undefined` for fewer than 8 samples
or a zero denominator, else slope, intercept and the R² (each local of the
source is one definition above). -/
def fitLinear (xs ys : List ℚ) : Option Fit :=
  if xs.length < 8 then none
  else if fitDenom xs ys = 0 then none
  else some ⟨fitA xs ys, fitB xs ys, fitR2 xs ys, xs.length⟩

end DraftPunk


namespace DraftPunk

/-! ## General helper lemmas -/

/-- A successful association-list lookup returns a stored pair. -/
theorem lookup_mem {α β : Type} [BEq α] [LawfulBEq α] {l : List (α × β)} {s : α} {v : β}
    (h : l.lookup s = some v) : (s, v) ∈ l := by
  induction l with
  | nil => simp [List.lookup] at h
  | cons p rest ih =>
    rw [List.lookup] at h
    by_cases hk : s == p.1
    · simp only [hk, if_pos] at h
      have hp : (s, v) = p := by
        obtain ⟨k, w⟩ := p
        have hs : s = k := eq_of_beq hk
        have hv : w = v := by simpa using h
        simp [hs, hv]
      rw [hp]
      exact List.mem_cons_self _ _
    · simp only [hk] at h
      exact List.mem_cons_of_mem _ (ih h)

/-- The length of a `filterMap` counts the inputs on which the function
succeeds. -/
theorem length_filterMap_eq_countP {α β : Type} (f : α → Option β) (l : List α) :
    (l.filterMap f).length = l.countP (fun a => (f a).isSome) := by
  induction l with
  | nil => rfl
  | cons a rest ih =>
    rw [List.filterMap_cons, List.countP_cons]
    cases hfa : f a <;> simp [hfa, ih]

/-! ## C10 — the alias table is a pure, single-step directed lookup -/

/-- C10: `applyAlias` maps "dk metcalf" to "d k metcalf" and "d k metcalf"
back to "dk metcalf"; every present key yields exactly its stored directed
value, every absent key is returned unchanged, and no closure is applied —
`applyAlias` is not idempotent on the metcalf pair. -/
theorem C10_applyAlias_directed_lookup :
    applyAlias "dk metcalf" = "d k metcalf" ∧
    applyAlias "d k metcalf" = "dk metcalf" ∧
    (∀ s v, nameAliases.lookup s = some v → applyAlias s = v) ∧
    (∀ s, nameAliases.lookup s = none → applyAlias s = s) ∧
    applyAlias (applyAlias "dk metcalf") ≠ applyAlias "dk metcalf" := by
  refine ⟨by decide, by decide, ?_, ?_, by decide⟩
  · intro s v h
    have hv : v ≠ "" := by
      have hmem := lookup_mem h
      have hall : ∀ p ∈ nameAliases, p.2 ≠ "" := by decide
      exact hall _ hmem
    simp [applyAlias, h, hv]
  · intro s h
    simp [applyAlias, h]

/-- Witness for C10: the theorem applied to the concrete present key
"gabe davis" and to the concrete absent key "puka nacua". -/
theorem C10_applyAlias_directed_lookup_witness :
    applyAlias "gabe davis" = "gabriel davis" ∧ applyAlias "puka nacua" = "puka nacua" :=
  ⟨C10_applyAlias_directed_lookup.2.2.1 "gabe davis" "gabriel davis" (by decide),
   C10_applyAlias_directed_lookup.2.2.2.1 "puka nacua" (by decide)⟩

end DraftPunk

namespace DraftPunk

/-! ## C6 — normalizeName -/

/-- Counterexample for C6: the apostrophe of "Ja'Marr" is replaced by a
space, not removed, so the two normalizations the claim equates differ. -/
theorem C6_normalizeName_counterexample :
    normalizeName "Ja'Marr Chase Jr." ≠ normalizeName "jamarr chase" := by decide

/-- C6 (amended): `normalizeName` lowercases, trims, replaces every
character outside ASCII letters/digits/whitespace by a space, collapses
whitespace runs, trims, and drops a final jr/sr/ii/iii/iv/v token; the
punctuation replacement inserts a space, so
`normalizeName "Ja'Marr Chase Jr." = "ja marr chase"` (not
`"jamarr chase"`); empty and null/undefined inputs give `""`. -/
theorem C6_normalizeName_amended :
    normalizeName "Ja'Marr Chase Jr." = "ja marr chase" ∧
    normalizeName "jamarr chase" = "jamarr chase" ∧
    normalizeName "Patrick Mahomes II" = "patrick mahomes" ∧
    normalizeName "  D.K. Metcalf  " = "d k metcalf" ∧
    normalizeName "" = "" ∧
    normalizeNameOpt none = "" ∧
    normalizeNameOpt (some "") = "" := by decide

/-! ## C2 — the WR/TE composite always counts the external-projection
weight in its denominator -/

/-- C2 (code bug): on a row whose external projection, RTM overall and
prior-year PPG are all absent and whose wopr-PPG is positive (here
`wopr = 0.5`, `wopr_ppg = 10`), the composite divides `10 * 0.3` by
`0.4 + 0.3` and returns `30/7`, not the `10` the spec's renormalization
(`pwoprCompositeSpec`) requires: the `0.4` weight of the absent external
projection is added to the denominator unconditionally. -/
theorem C2_pwopr_renormalization_bug :
    pwoprComposite (1/2) none none none = 30/7 ∧
    mapWoprToPPG (1/2) = 10 ∧
    pwoprCompositeSpec (1/2) none none none = 10 ∧
    (30/7 : ℚ) ≠ 10 := by
  refine ⟨?_, ?_, ?_, by norm_num⟩
  · norm_num [pwoprComposite, mapWoprToPPG, truthyOpt]
  · norm_num [mapWoprToPPG]
  · norm_num [pwoprCompositeSpec, mapWoprToPPG, truthyOpt]

end DraftPunk

namespace DraftPunk

/-! ## C8 — fitLinear degeneracy guards -/

/-- Counterexample for C8: with eight equal `xs` but only seven `ys`, the
accumulation loop skips the eighth pair (its `ys[i]` is `undefined`) while
`n` stays 8, so the denominator is `8 * 7 - 7 * 7 = 7 ≠ 0` and a fit IS
returned although all `xs` are equal. -/
theorem C8_fitLinear_counterexample :
    (∀ x ∈ ([1, 1, 1, 1, 1, 1, 1, 1] : List ℚ), x = 1) ∧
    (fitLinear [1, 1, 1, 1, 1, 1, 1, 1] [0, 0, 0, 0, 0, 0, 0]).isSome = true := by
  refine ⟨by decide, ?_⟩
  norm_num [fitLinear, fitDenom, fitSumX, fitSumXX]

/-- C8 (amended): `fitLinear` returns no fit when `n < 8` and when the
closed-form denominator is zero; for parallel inputs (equal lengths) the
denominator is zero whenever all `xs` are equal; and any returned fit has
its R² in [0, 1]. -/
theorem C8_fitLinear_amended :
    (∀ xs ys : List ℚ, xs.length < 8 → fitLinear xs ys = none) ∧
    (∀ xs ys : List ℚ, fitDenom xs ys = 0 → fitLinear xs ys = none) ∧
    (∀ (xs ys : List ℚ) (c : ℚ), xs.length = ys.length → (∀ x ∈ xs, x = c) →
      fitDenom xs ys = 0) ∧
    (∀ (xs ys : List ℚ) (f : Fit), fitLinear xs ys = some f → 0 ≤ f.r2 ∧ f.r2 ≤ 1) := by
  refine ⟨?_, ?_, ?_, ?_⟩
  · intro xs ys h
    simp [fitLinear, h]
  · intro xs ys h
    simp [fitLinear, h]
  · intro xs ys c hlen hall
    have hfst : (xs.zip ys).map Prod.fst = xs := List.map_fst_zip xs ys (le_of_eq hlen)
    have h1 : fitSumX xs ys = (xs.length : ℚ) * c := by
      rw [fitSumX, hfst]
      conv_lhs => rw [List.eq_replicate_of_mem hall]
      rw [List.sum_replicate, nsmul_eq_mul]
    have h2 : fitSumXX xs ys = (xs.length : ℚ) * (c * c) := by
      have hcomp : (fun p : ℚ × ℚ => p.1 * p.1) = ((fun x => x * x) ∘ Prod.fst) := rfl
      rw [fitSumXX, hcomp, ← List.map_map, hfst]
      conv_lhs => rw [List.eq_replicate_of_mem hall]
      rw [List.map_replicate, List.sum_replicate, nsmul_eq_mul]
    rw [fitDenom, h1, h2]
    ring
  · intro xs ys f h
    have hr2 : f.r2 = fitR2 xs ys := by
      simp only [fitLinear] at h
      split_ifs at h
      rw [Option.some_inj] at h
      rw [← h]
    rw [hr2, fitR2]
    split_ifs
    · exact ⟨le_max_left _ _, max_le (by norm_num) (min_le_left _ _)⟩
    · norm_num

/-- Witness for C8: the amended theorem applied to concrete inputs — a
3-sample input, an input with zero denominator (empty `ys`, so every pair
is skipped and all sums vanish), eight equal parallel samples, and a
returned fit whose R² the bound applies to. -/
theorem C8_fitLinear_amended_witness :
    fitLinear [1, 2, 3] [4, 5, 6] = none ∧
    fitLinear [1, 1, 1, 1, 1, 1, 1, 1] ([] : List ℚ) = none ∧
    fitDenom (List.replicate 8 (5 : ℚ)) (List.replicate 8 (0 : ℚ)) = 0 ∧
    (0 ≤ ((fitLinear [1, 1, 1, 1, 1, 1, 1, 1] [0, 0, 0, 0, 0, 0, 0]).getD ⟨0, 0, 0, 0⟩).r2 ∧
      ((fitLinear [1, 1, 1, 1, 1, 1, 1, 1] [0, 0, 0, 0, 0, 0, 0]).getD ⟨0, 0, 0, 0⟩).r2 ≤ 1) := by
  refine ⟨C8_fitLinear_amended.1 _ _ (by decide), ?_, ?_, ?_⟩
  · refine C8_fitLinear_amended.2.1 _ _ ?_
    simp [fitDenom, fitSumX, fitSumXX]
  · exact C8_fitLinear_amended.2.2.1 _ _ 5 (by decide) (by decide)
  · have h : fitLinear [1, 1, 1, 1, 1, 1, 1, 1] [0, 0, 0, 0, 0, 0, 0] =
        some ⟨fitA [1, 1, 1, 1, 1, 1, 1, 1] [0, 0, 0, 0, 0, 0, 0],
          fitB [1, 1, 1, 1, 1, 1, 1, 1] [0, 0, 0, 0, 0, 0, 0],
          fitR2 [1, 1, 1, 1, 1, 1, 1, 1] [0, 0, 0, 0, 0, 0, 0], 8⟩ := by
      norm_num [fitLinear, fitDenom, fitSumX, fitSumXX]
    rw [h, Option.getD_some]
    exact C8_fitLinear_amended.2.2.2 _ _ _ h

end DraftPunk

namespace DraftPunk

/-! ## C1 — manualOverride rows are untouched by reconciliation merges -/

/-- C1: through any number of reconciliation merge cycles with arbitrary
taken-sets, a row whose `manualOverride` is `true` is returned identically
(in particular its `taken` flag never changes); and in each single merge a
row whose `manualOverride` is `false` or unset gets exactly
`taken := (normalizedName ∈ pickedNames)`, all other fields unchanged. -/
theorem C1_manualOverride_sticky
    (sets : List (List String)) (s : List String) (rows : List RankingRow)
    (i : ℕ) (r : RankingRow) (hr : rows[i]? = some r) :
    (r.manualOverride = some true → (mergeMany sets rows)[i]? = some r) ∧
    (r.manualOverride ≠ some true →
      (mergeTaken s rows)[i]? = some { r with taken := s.contains r.normalizedName }) := by
  constructor
  · intro hov
    induction sets generalizing rows with
    | nil => simpa [mergeMany] using hr
    | cons s' rest ih =>
      have hstep : (mergeTaken s' rows)[i]? = some r := by
        simp [mergeTaken, List.getElem?_map, hr, hov]
      have : mergeMany (s' :: rest) rows = mergeMany rest (mergeTaken s' rows) := by
        simp [mergeMany]
      rw [this]
      exact ih _ hstep
  · intro hov
    simp only [mergeTaken, List.getElem?_map, hr, Option.map_some']
    rw [if_neg hov]

/-- Witness for C1: a two-row list — the first row manually overridden and
kept bit-for-bit through two merge cycles whose taken-sets contradict its
flag, the second row not overridden and set from membership. -/
theorem C1_manualOverride_sticky_witness :
    (mergeMany [["a"], []]
        [⟨"A", "1", "RB", none, false, some true, "a"⟩,
         ⟨"B", "2", "WR", none, false, none, "b"⟩])[0]? =
      some ⟨"A", "1", "RB", none, false, some true, "a"⟩ ∧
    (mergeTaken ["b"]
        [⟨"A", "1", "RB", none, false, some true, "a"⟩,
         ⟨"B", "2", "WR", none, false, none, "b"⟩])[1]? =
      some ⟨"B", "2", "WR", none, true, none, "b"⟩ := by
  constructor
  · exact (C1_manualOverride_sticky [["a"], []] ["b"]
      [⟨"A", "1", "RB", none, false, some true, "a"⟩,
       ⟨"B", "2", "WR", none, false, none, "b"⟩] 0
      ⟨"A", "1", "RB", none, false, some true, "a"⟩ (by decide)).1 rfl
  · have h := (C1_manualOverride_sticky [["a"], []] ["b"]
      [⟨"A", "1", "RB", none, false, some true, "a"⟩,
       ⟨"B", "2", "WR", none, false, none, "b"⟩] 1
      ⟨"B", "2", "WR", none, false, none, "b"⟩ (by decide)).2 (by decide)
    simpa using h

end DraftPunk

namespace DraftPunk

/-! ## C4 — which players skip the injury multiplication -/

/-- C4 (amended): in the future-week projection the injury multiplication
is skipped exactly for the players whose feed projection is present and
positive AND whose `playProbability` is zero (status Out or IR); every
other player that is not dropped outright (Out/IR with no feed projection)
gets `applyInjuryAdjustment` applied to the regressed blend; for a player
with no injury designation both factors are 1, so the multiplication is a
numeric no-op. -/
theorem C4_injury_skip_amended (pos : String) (sleeperProj : Option ℚ)
    (status : Option String) (hist trend : ℚ) (nzc wo : ℕ) :
    (∀ sp, sleeperProj = some sp → 0 < sp → getInjuryProbability status = 0 →
      projectFutureWeek pos sleeperProj status hist trend nzc wo =
        some (max 0 (bestBallPreInjury pos sleeperProj hist trend nzc wo))) ∧
    (∀ sp, sleeperProj = some sp → ¬(0 < sp ∧ getInjuryProbability status = 0) →
      projectFutureWeek pos sleeperProj status hist trend nzc wo =
        some (max 0 (applyInjuryAdjustment
          (bestBallPreInjury pos sleeperProj hist trend nzc wo) status))) ∧
    (sleeperProj = none → getInjuryProbability status ≠ 0 →
      projectFutureWeek pos sleeperProj status hist trend nzc wo =
        some (max 0 (applyInjuryAdjustment
          (bestBallPreInjury pos sleeperProj hist trend nzc wo) status))) ∧
    (getInjuryProbability status = 0 → sleeperProj = none →
      projectFutureWeek pos sleeperProj status hist trend nzc wo = none) ∧
    (status = none → getInjuryProbability status = 1 ∧ getInjuryImpact status = 1) := by
  refine ⟨?_, ?_, ?_, ?_, ?_⟩
  · rintro sp rfl hsp hprob
    simp only [projectFutureWeek, bestBallPreInjury]
    rw [if_neg (by simp), if_pos ⟨hsp, hprob⟩]
  · rintro sp rfl hcond
    simp only [projectFutureWeek, bestBallPreInjury, applyInjuryAdjustment]
    rw [if_neg (by simp), if_neg hcond]
  · rintro rfl hprob
    simp only [projectFutureWeek, bestBallPreInjury, applyInjuryAdjustment]
    rw [if_neg (by simp [hprob])]
  · rintro hprob rfl
    simp only [projectFutureWeek]
    rw [if_pos ⟨hprob, trivial⟩]
  · rintro rfl
    exact ⟨rfl, rfl⟩

end DraftPunk

namespace DraftPunk

/-- Counterexample for C4: a player designated Out with a positive feed
projection (10 points, no history). The claim says the multiplication by
`playProbability * performanceImpact` (zero for Out) is performed, which
would zero the projection; the code skips it for exactly this player and
returns the regressed blend `10 + 0.12 * (11 - 10) = 253/25`. -/
theorem C4_injury_skip_counterexample :
    projectFutureWeek "WR" (some 10) (some "Out") 0 0 0 1 = some (253/25) ∧
    applyInjuryAdjustment (bestBallPreInjury "WR" (some 10) 0 0 0 1) (some "Out") = 0 ∧
    (253/25 : ℚ) ≠ 0 := by
  have hprob : getInjuryProbability (some "Out") = 0 := by decide
  have hpa : getPositionAverage "WR" = 11 := by decide
  refine ⟨?_, ?_, by norm_num⟩
  · simp only [projectFutureWeek]
    rw [if_neg (by simp [hprob]), if_pos ⟨by norm_num, hprob⟩]
    norm_num [hpa]
  · simp only [applyInjuryAdjustment, hprob]
    ring

/-- Witness for C4: the amended theorem applied to an Out player with feed
projection 10 (skip branch), a healthy player with feed projection 10
(multiplication branch, a numeric no-op), and an IR player without a feed
projection (dropped). -/
theorem C4_injury_skip_amended_witness :
    projectFutureWeek "WR" (some 10) (some "Out") 0 0 0 1 =
      some (max 0 (bestBallPreInjury "WR" (some 10) 0 0 0 1)) ∧
    projectFutureWeek "WR" (some 10) none 0 0 0 1 =
      some (max 0 (applyInjuryAdjustment (bestBallPreInjury "WR" (some 10) 0 0 0 1) none)) ∧
    projectFutureWeek "WR" none (some "IR") 5 0 3 1 = none := by
  refine ⟨?_, ?_, ?_⟩
  · exact (C4_injury_skip_amended "WR" (some 10) (some "Out") 0 0 0 1).1 10 rfl
      (by norm_num) (by decide)
  · exact (C4_injury_skip_amended "WR" (some 10) none 0 0 0 1).2.1 10 rfl (by decide)
  · exact (C4_injury_skip_amended "WR" none (some "IR") 5 0 3 1).2.2.2.1 (by decide) rfl

end DraftPunk

namespace DraftPunk

/-! ## C9 — parseCSV: hard failure on missing columns, silent row drops -/

/-- The required-column check of `parseCSV`: name, tier and pos/position
all resolve to an index. -/
def requiredColumnsPresent (headers : List String) : Prop :=
  (findHeaderIndex headers ["name"]).isSome = true ∧
  (findHeaderIndex headers ["tier"]).isSome = true ∧
  (findHeaderIndex headers ["pos", "position"]).isSome = true

/-- Which data lines survive the row loop, stated from the claim's words:
the line must have enough parsed fields to reach each required column
index, and its name cell must be non-empty after trimming. -/
def rowKept (nameIdx tierIdx posIdx : ℕ) (line : String) : Bool :=
  let values := parseCSVLine (jsTrim line)
  (values.length > nameIdx && values.length > tierIdx && values.length > posIdx) &&
    jsTrim (values.getD nameIdx "") != ""

/-- The row loop produces a row exactly on the lines `rowKept` describes. -/
theorem parseRow_isSome (nameIdx tierIdx posIdx : ℕ) (assetTypeIdx : Option ℕ)
    (line : String) :
    (parseRow nameIdx tierIdx posIdx assetTypeIdx line).isSome =
      rowKept nameIdx tierIdx posIdx line := by
  simp only [parseRow, rowKept]
  split_ifs with h1 h2 <;> simp_all

/-- Every produced row starts untaken and without a manual override. -/
theorem parseRow_fields (nameIdx tierIdx posIdx : ℕ) (assetTypeIdx : Option ℕ)
    (line : String) (row : RankingRow)
    (h : parseRow nameIdx tierIdx posIdx assetTypeIdx line = some row) :
    row.taken = false ∧ row.manualOverride = none := by
  simp only [parseRow] at h
  split_ifs at h
  rw [Option.some_inj] at h
  rw [← h]
  exact ⟨rfl, rfl⟩

/-- C9 (amended): when the input has at least one non-blank line,
`parseCSV` fails — with the message naming the required columns, producing
no rows — exactly when the header lacks one of name, tier, pos/position;
when all are present it returns `ok`, every returned row has
`taken = false` and no `manualOverride`, and there is exactly one row per
data line that reaches every required column index and has a non-empty
trimmed name (short rows and empty-name rows are silently dropped). -/
theorem C9_parseCSV_amended (content headerLine : String) (dataLines : List String)
    (hlines : csvLines content = headerLine :: dataLines) :
    (parseCSV content = .error missingColumnsMsg ↔
      ¬ requiredColumnsPresent (parseCSVLine headerLine)) ∧
    (∀ rows, parseCSV content = .ok rows →
      (∀ row ∈ rows, row.taken = false ∧ row.manualOverride = none) ∧
      ∀ nameIdx tierIdx posIdx,
        findHeaderIndex (parseCSVLine headerLine) ["name"] = some nameIdx →
        findHeaderIndex (parseCSVLine headerLine) ["tier"] = some tierIdx →
        findHeaderIndex (parseCSVLine headerLine) ["pos", "position"] = some posIdx →
        rows.length = dataLines.countP (rowKept nameIdx tierIdx posIdx)) := by
  rcases hn : findHeaderIndex (parseCSVLine headerLine) ["name"] with _ | nIdx
  · have hcsv : parseCSV content = .error missingColumnsMsg := by
      simp only [parseCSV, hlines, hn]
    refine ⟨by rw [hcsv]; simp [requiredColumnsPresent, hn], ?_⟩
    intro rows hrows
    rw [hcsv] at hrows
    exact absurd hrows (by simp)
  · rcases ht : findHeaderIndex (parseCSVLine headerLine) ["tier"] with _ | tIdx
    · have hcsv : parseCSV content = .error missingColumnsMsg := by
        simp only [parseCSV, hlines, hn, ht]
      refine ⟨by rw [hcsv]; simp [requiredColumnsPresent, ht], ?_⟩
      intro rows hrows
      rw [hcsv] at hrows
      exact absurd hrows (by simp)
    · rcases hp : findHeaderIndex (parseCSVLine headerLine) ["pos", "position"] with _ | pIdx
      · have hcsv : parseCSV content = .error missingColumnsMsg := by
          simp only [parseCSV, hlines, hn, ht, hp]
        refine ⟨by rw [hcsv]; simp [requiredColumnsPresent, hp], ?_⟩
        intro rows hrows
        rw [hcsv] at hrows
        exact absurd hrows (by simp)
      · have hcsv : parseCSV content = .ok (dataLines.filterMap
            (parseRow nIdx tIdx pIdx
              (findHeaderIndex (parseCSVLine headerLine) ["assettype", "asset_type"]))) := by
          simp only [parseCSV, hlines, hn, ht, hp]
        refine ⟨by rw [hcsv]; simp [requiredColumnsPresent, hn, ht, hp], ?_⟩
        intro rows hrows
        rw [hcsv, Except.ok.injEq] at hrows
        subst hrows
        constructor
        · intro row hrow
          obtain ⟨line, _, hparse⟩ := List.mem_filterMap.mp hrow
          exact parseRow_fields _ _ _ _ _ _ hparse
        · intro n' t' p' hn' ht' hp'
          rw [Option.some_inj] at hn' ht' hp'
          subst hn'; subst ht'; subst hp'
          rw [length_filterMap_eq_countP]
          refine List.countP_congr ?_
          intro line _
          rw [parseRow_isSome]

/-- Counterexample for C9: the data row "Bijan,1" of a well-formed file
has a non-empty name but too few fields to reach the pos column, so it
produces NO RankingRow — `parseCSV` returns `ok []` where the claim
requires one row. -/
theorem C9_parseCSV_counterexample :
    parseCSV "name,tier,pos\nBijan,1" = .ok [] ∧
    jsTrim ((parseCSVLine (jsTrim "Bijan,1")).getD 0 "") ≠ "" := by decide

/-- Witness for C9: the amended theorem applied to a concrete two-line
file (whose single data row is kept) and, through the error equivalence,
to a file missing the tier column. -/
theorem C9_parseCSV_amended_witness :
    (parseCSV "name,tier,pos\nBijan Robinson,1,RB" = .error missingColumnsMsg ↔
      ¬ requiredColumnsPresent (parseCSVLine "name,tier,pos")) ∧
    (∀ row ∈ [(⟨"Bijan Robinson", "1", "RB", none, false, none, "bijan robinson"⟩ :
        RankingRow)], row.taken = false ∧ row.manualOverride = none) ∧
    ([(⟨"Bijan Robinson", "1", "RB", none, false, none, "bijan robinson"⟩ :
        RankingRow)].length = ["Bijan Robinson,1,RB"].countP (rowKept 0 1 2)) := by
  have h := C9_parseCSV_amended "name,tier,pos\nBijan Robinson,1,RB" "name,tier,pos"
    ["Bijan Robinson,1,RB"] (by decide)
  have hok := h.2 [⟨"Bijan Robinson", "1", "RB", none, false, none, "bijan robinson"⟩]
    (by decide)
  exact ⟨h.1, hok.1, hok.2 0 1 2 (by decide) (by decide) (by decide)⟩

end DraftPunk

namespace DraftPunk

/-! ## C7 — pickBestBall is input-order invariant when projections are
distinct -/

/-- Strict projection-descending order (what `projDesc` becomes on a list
with pairwise-distinct projections). -/
def projStrict (a b : PlayerProjection) : Prop := b.proj < a.proj

instance : IsAntisymm PlayerProjection projStrict :=
  ⟨fun _ _ h₁ h₂ => ((lt_asymm h₁) h₂).elim⟩

/-- A stable sort of a no-ties list is determined by its multiset of
entries: sorting two permutations of each other gives the same list. -/
theorem insertionSort_projDesc_eq_of_perm {l₁ l₂ : List PlayerProjection}
    (hp : l₁.Perm l₂) (hd : l₁.Pairwise (fun a b => a.proj ≠ b.proj)) :
    l₁.insertionSort projDesc = l₂.insertionSort projDesc := by
  have hperm : (l₁.insertionSort projDesc).Perm (l₂.insertionSort projDesc) :=
    (List.perm_insertionSort _ _).trans (hp.trans (List.perm_insertionSort _ _).symm)
  have hd₁ : (l₁.insertionSort projDesc).Pairwise (fun a b => a.proj ≠ b.proj) :=
    ((List.perm_insertionSort projDesc l₁).pairwise_iff (fun h => h.symm)).mpr hd
  have hd₂ : (l₂.insertionSort projDesc).Pairwise (fun a b => a.proj ≠ b.proj) :=
    (hperm.pairwise_iff (fun h => h.symm)).mp hd₁
  have hstrict₁ : (l₁.insertionSort projDesc).Pairwise projStrict :=
    ((List.sorted_insertionSort projDesc l₁).and hd₁).imp
      (fun h => lt_of_le_of_ne h.1 (Ne.symm h.2))
  have hstrict₂ : (l₂.insertionSort projDesc).Pairwise projStrict :=
    ((List.sorted_insertionSort projDesc l₂).and hd₂).imp
      (fun h => lt_of_le_of_ne h.1 (Ne.symm h.2))
  exact List.eq_of_perm_of_sorted hperm hstrict₁ hstrict₂

/-- One `takeTop` step gives identical results on permuted no-ties inputs. -/
theorem takeTop_congr_of_perm {l₁ l₂ : List PlayerProjection}
    (hp : l₁.Perm l₂) (hd : l₁.Pairwise (fun a b => a.proj ≠ b.proj))
    (elig : String → Bool) (n : ℕ) (st : List String × ℚ) :
    takeTop l₁ elig n st = takeTop l₂ elig n st := by
  unfold takeTop takeTopPool
  rw [insertionSort_projDesc_eq_of_perm (hp.filter _)
    (List.Pairwise.sublist (List.filter_sublist l₁) hd)]

/-- The whole slot-processing fold gives identical results on permuted
no-ties inputs, from any starting state. -/
theorem foldl_takeTop_congr_of_perm {l₁ l₂ : List PlayerProjection}
    (hp : l₁.Perm l₂) (hd : l₁.Pairwise (fun a b => a.proj ≠ b.proj))
    (steps : List ((String → Bool) × ℕ)) (st : List String × ℚ) :
    steps.foldl (fun st se => if se.2 = 0 then st else takeTop l₁ se.1 se.2 st) st =
      steps.foldl (fun st se => if se.2 = 0 then st else takeTop l₂ se.1 se.2 st) st := by
  induction steps generalizing st with
  | nil => rfl
  | cons se rest ih =>
    rw [List.foldl_cons, List.foldl_cons]
    by_cases hz : se.2 = 0
    · rw [if_pos hz, if_pos hz]
      exact ih st
    · rw [if_neg hz, if_neg hz, takeTop_congr_of_perm hp hd]
      exact ih _

/-- C7: for any slot-count mapping, `pickBestBall` returns the same total
on any two candidate lists that are permutations of each other with
pairwise-distinct projected points (with ties the result is still a
function of the fixed input order, the embedding being a pure function). -/
theorem C7_pickBestBall_order_invariant (slots : String → ℕ)
    (l₁ l₂ : List PlayerProjection) (hp : l₁.Perm l₂)
    (hd : l₁.Pairwise (fun a b => a.proj ≠ b.proj)) :
    pickBestBall l₁ slots = pickBestBall l₂ slots := by
  unfold pickBestBall
  rw [foldl_takeTop_congr_of_perm hp hd]

/-- Witness for C7: two orderings of the same two-candidate list with
distinct projections and one WR slot. -/
theorem C7_pickBestBall_order_invariant_witness :
    pickBestBall [⟨"a", "WR", 10⟩, ⟨"b", "WR", 7⟩]
        (fun s => if s == "WR" then 1 else 0) =
      pickBestBall [⟨"b", "WR", 7⟩, ⟨"a", "WR", 10⟩]
        (fun s => if s == "WR" then 1 else 0) :=
  C7_pickBestBall_order_invariant _ _ _ (by decide) (by decide)

end DraftPunk

namespace DraftPunk

/-! ## C3 — power-rankings optimizer vs the Best-Ball optimizer -/

/-- The pool of a power-rankings step is the pool of the corresponding
Best-Ball step on the value-as-projection candidates. -/
theorem prPool_map (players : List PRPlayer) (used : List String)
    (elig : String → Bool) (n : ℕ) :
    (prPool players used elig n).map toProj = takeTopPool (players.map toProj) used elig n := by
  unfold prPool takeTopPool
  rw [List.map_take]
  congr 1
  rw [List.map_insertionSort valueDesc projDesc toProj _ (fun a _ b _ => Iff.rfl)]
  congr 1
  rw [List.filter_map]
  rfl

/-- `prTakeTop` tracks the same `used` set and running total as `takeTop`
on the mapped candidates (the positional tallies are extra bookkeeping). -/
theorem prTakeTop_used_total (players : List PRPlayer) (elig : String → Bool)
    (n : ℕ) (c : Bool) (st : PRState) (bst : List String × ℚ)
    (hu : st.used = bst.1) (ht : st.totalValue = bst.2) :
    (prTakeTop players elig n c st).used = (takeTop (players.map toProj) elig n bst).1 ∧
    (prTakeTop players elig n c st).totalValue =
      (takeTop (players.map toProj) elig n bst).2 := by
  simp only [prTakeTop, takeTop]
  rw [← hu, ← ht, ← prPool_map, List.map_map, List.map_map]
  exact ⟨rfl, rfl⟩

/-- Same for the SUPER_FLEX variant `takeTopWithQBTracking`. -/
theorem prTakeTopQBTracking_used_total (players : List PRPlayer) (elig : String → Bool)
    (n : ℕ) (st : PRState) (bst : List String × ℚ)
    (hu : st.used = bst.1) (ht : st.totalValue = bst.2) :
    (prTakeTopQBTracking players elig n st).used =
      (takeTop (players.map toProj) elig n bst).1 ∧
    (prTakeTopQBTracking players elig n st).totalValue =
      (takeTop (players.map toProj) elig n bst).2 := by
  simp only [prTakeTopQBTracking, takeTop]
  rw [← hu, ← ht, ← prPool_map, List.map_map, List.map_map]
  exact ⟨rfl, rfl⟩

/-- One guarded step (`if (slots[s]) takeTop(...)`) preserves the
used/total correspondence. -/
theorem prStep_rel (players : List PRPlayer) (elig : String → Bool) (n : ℕ) (c : Bool)
    {st : PRState} {bst : List String × ℚ}
    (h : st.used = bst.1 ∧ st.totalValue = bst.2) :
    (if n = 0 then st else prTakeTop players elig n c st).used =
      (if n = 0 then bst else takeTop (players.map toProj) elig n bst).1 ∧
    (if n = 0 then st else prTakeTop players elig n c st).totalValue =
      (if n = 0 then bst else takeTop (players.map toProj) elig n bst).2 := by
  by_cases hz : n = 0
  · simp only [if_pos hz]
    exact h
  · simp only [if_neg hz]
    exact prTakeTop_used_total players elig n c st bst h.1 h.2

/-- The guarded SUPER_FLEX step preserves the correspondence. -/
theorem prStepQB_rel (players : List PRPlayer) (elig : String → Bool) (n : ℕ)
    {st : PRState} {bst : List String × ℚ}
    (h : st.used = bst.1 ∧ st.totalValue = bst.2) :
    (if n = 0 then st else prTakeTopQBTracking players elig n st).used =
      (if n = 0 then bst else takeTop (players.map toProj) elig n bst).1 ∧
    (if n = 0 then st else prTakeTopQBTracking players elig n st).totalValue =
      (if n = 0 then bst else takeTop (players.map toProj) elig n bst).2 := by
  by_cases hz : n = 0
  · simp only [if_pos hz]
    exact h
  · simp only [if_neg hz]
    exact prTakeTopQBTracking_used_total players elig n st bst h.1 h.2

end DraftPunk

namespace DraftPunk

/-- C3 (amended): the power-rankings optimizer equals the Best-Ball greedy
optimizer run on value in place of projected points whenever the slot
mapping contains no WRRB, WRRBTE, K or DST slots — with those, the two
differ, because `pickOptimalLineupByValue` processes FLEX before the
narrower WRRB/WRRBTE (the reverse of §4.4's tightest-first order) and has
no K/DST slots at all. -/
theorem C3_powerRankings_optimizer_amended (players : List PRPlayer) (slots : String → ℕ)
    (hWRRB : slots "WRRB" = 0) (hWRRBTE : slots "WRRBTE" = 0)
    (hK : slots "K" = 0) (hDST : slots "DST" = 0) :
    (pickOptimalLineupByValue players slots).totalValue =
      pickBestBall (players.map toProj) slots := by
  simp only [pickOptimalLineupByValue, pickBestBall, bestBallSteps, List.map_cons,
    List.map_nil, List.cons_append, List.nil_append, List.foldl_cons, List.foldl_nil,
    hWRRB, hWRRBTE, hK, hDST, eq_self_iff_true, if_true]
  exact (prStepQB_rel players _ _
    (prStep_rel players _ _ false
      (prStep_rel players _ _ true
        (prStep_rel players _ _ true
          (prStep_rel players _ _ true
            (prStep_rel players _ _ true ⟨rfl, rfl⟩)))))).2

/-- Counterexample for C3: candidates WR 10 / RB 1 / TE 5 with one FLEX
and one WRRB slot. `pickBestBall` (WRRB first) gets 10 + 5 = 15;
`pickOptimalLineupByValue` (FLEX first) gets 10 + 1 = 11. -/
theorem C3_powerRankings_optimizer_counterexample :
    (pickOptimalLineupByValue
        [⟨"a", "WR", 10, "A"⟩, ⟨"b", "RB", 1, "B"⟩, ⟨"c", "TE", 5, "C"⟩]
        (fun s => if s == "FLEX" || s == "WRRB" then 1 else 0)).totalValue ≠
      pickBestBall
        (([⟨"a", "WR", 10, "A"⟩, ⟨"b", "RB", 1, "B"⟩, ⟨"c", "TE", 5, "C"⟩] :
            List PRPlayer).map toProj)
        (fun s => if s == "FLEX" || s == "WRRB" then 1 else 0) := by
  have hl : (pickOptimalLineupByValue
      [⟨"a", "WR", 10, "A"⟩, ⟨"b", "RB", 1, "B"⟩, ⟨"c", "TE", 5, "C"⟩]
      (fun s => if s == "FLEX" || s == "WRRB" then 1 else 0)).totalValue = 11 := by
    simp +decide [pickOptimalLineupByValue, prTakeTop, prPool, prPositionalAdd, FLEX_MAP,
      takeTopPool, List.insertionSort, List.orderedInsert, valueDesc]
    norm_num
  have hr : pickBestBall
      (([⟨"a", "WR", 10, "A"⟩, ⟨"b", "RB", 1, "B"⟩, ⟨"c", "TE", 5, "C"⟩] :
          List PRPlayer).map toProj)
      (fun s => if s == "FLEX" || s == "WRRB" then 1 else 0) = 15 := by
    simp +decide [pickBestBall, bestBallSteps, takeTop, takeTopPool, FLEX_MAP, toProj,
      List.insertionSort, List.orderedInsert, projDesc]
    norm_num
  rw [hl, hr]
  norm_num

/-- Witness for C3: the amended equality applied to a roster with one QB
slot and one FLEX slot. -/
theorem C3_powerRankings_optimizer_amended_witness :
    (pickOptimalLineupByValue [⟨"q", "QB", 3, "Q"⟩, ⟨"w", "WR", 2, "W"⟩]
        (fun s => if s == "QB" || s == "FLEX" then 1 else 0)).totalValue =
      pickBestBall (([⟨"q", "QB", 3, "Q"⟩, ⟨"w", "WR", 2, "W"⟩] : List PRPlayer).map toProj)
        (fun s => if s == "QB" || s == "FLEX" then 1 else 0) :=
  C3_powerRankings_optimizer_amended _ _ (by decide) (by decide) (by decide) (by decide)

end DraftPunk

namespace DraftPunk

/-! ## C5 — rookie-pick numbering of kicker picks -/

/-- In rookie-pick mode, the `position: 'PICK'` rows the loop emits are
exactly one per kicker pick, in order, and the `j`-th of them (counting
from 1, with the counter entering at `c`) is named
`rookiePickName L (c + j)`. -/
theorem processPicks_kicker_names (L : ℕ) (l : List SleeperPickIn) :
    ∀ c : ℕ, (∀ p ∈ l, posOf p ≠ "PICK") →
      ((processPicks true L c l).2.filter (fun d => d.position == "PICK")).map
          (fun d => d.playerName) =
        (List.range (l.countP (fun p => posOf p == "K"))).map
          (fun i => rookiePickName L (c + i + 1)) := by
  induction l with
  | nil => intro c _; rfl
  | cons pick rest ih =>
    intro c hpos
    have hrest : ∀ p ∈ rest, posOf p ≠ "PICK" :=
      fun p hp => hpos p (List.mem_cons_of_mem _ hp)
    by_cases hk : posOf pick == "K"
    · simp only [processPicks, Bool.true_and, hk, if_true]
      simp only [List.countP_cons, hk, eq_self_iff_true, if_true]
      rw [List.range_succ_eq_map]
      rw [List.filter_cons_of_pos (by simp)]
      simp only [List.map_cons, List.map_map]
      congr 1
      rw [ih (c + 1) hrest]
      refine List.map_congr_left ?_
      intro i _
      show rookiePickName L (c + 1 + i + 1) = rookiePickName L (c + Nat.succ i + 1)
      congr 1
      omega
    · have hk' : (posOf pick == "K") = false := by simpa using hk
      have hne : (posOf pick == "PICK") = false :=
        beq_eq_false_iff_ne.mpr (hpos pick (List.mem_cons_self _ _))
      cases hextract : extractPlayerName pick with
      | some name =>
        simp only [processPicks, Bool.true_and, hk', if_false, hextract]
        simp only [List.countP_cons, hk', Bool.false_eq_true, if_false, add_zero]
        rw [List.filter_cons_of_neg (by simp [hne])]
        exact ih c hrest
      | none =>
        simp only [processPicks, Bool.true_and, hk', if_false, hextract]
        simp only [List.countP_cons, hk', Bool.false_eq_true, if_false, add_zero]
        exact ih c hrest

/-- C5: over one poll cycle in rookie-pick mode (kicker counter rebuilt
from 0, picks sorted ascending by pick number), the `k`-th kicker pick is
synthesized as `rookiePickName leagueSize k` =
"2026 <round>.<pickInRound padded to 2>" with
`round = (k + leagueSize - 1) / leagueSize` — which equals
`⌈k / leagueSize⌉` — and `pickInRound = (k - 1) % leagueSize + 1`. -/
theorem C5_rookie_kicker_numbering (L : ℕ) (picks : List SleeperPickIn)
    (hpos : ∀ p ∈ picks, posOf p ≠ "PICK") :
    (((fetchPicksCycle true L picks).2.filter (fun d => d.position == "PICK")).map
        (fun d => d.playerName) =
      (List.range (picks.countP (fun p => posOf p == "K"))).map
        (fun i => rookiePickName L (i + 1))) ∧
    ∀ k : ℕ, 0 < k → 0 < L → ((ceilDivNat k L : ℕ) : ℤ) = ⌈(k : ℚ) / (L : ℚ)⌉ := by
  constructor
  · rw [fetchPicksCycle,
      processPicks_kicker_names L (picks.insertionSort pickNoLe) 0
        (fun p hp => hpos p ((List.mem_insertionSort _).mp hp)),
      (List.perm_insertionSort pickNoLe picks).countP_eq]
    simp
  · intro k hk hL
    have hL' : (0 : ℚ) < (L : ℚ) := by exact_mod_cast hL
    rw [eq_comm, Int.ceil_eq_iff]
    have h1 : ceilDivNat k L * L ≤ k + L - 1 := Nat.div_mul_le_self _ _
    have h1' : ceilDivNat k L * L < k + L :=
      lt_of_le_of_lt h1 (by omega)
    have key : ∀ a b : ℕ, a + b = k + L - 1 → b < L → k ≤ a := by
      intro a b ha hb
      omega
    have h2 : k ≤ L * ((k + L - 1) / L) :=
      key _ _ (Nat.div_add_mod (k + L - 1) L) (Nat.mod_lt _ hL)
    have hc1 : ((ceilDivNat k L * L : ℕ) : ℚ) < (k : ℚ) + L := by exact_mod_cast h1'
    have hc2 : (k : ℚ) ≤ ((L * ((k + L - 1) / L) : ℕ) : ℚ) := by exact_mod_cast h2
    push_cast at hc1 hc2
    constructor
    · rw [lt_div_iff₀ hL']
      push_cast
      nlinarith [hc1]
    · rw [div_le_iff₀ hL']
      push_cast
      simp only [ceilDivNat]
      nlinarith [hc2]

end DraftPunk

namespace DraftPunk

/-- Witness for C5: thirteen kicker picks in a 12-team league — the
theorem applied to that snapshot names the 13th synthesized pick
"2026 2.01", and the round formula at k = 13, leagueSize = 12 equals the
ceiling ⌈13/12⌉ = 2. -/
theorem C5_rookie_kicker_numbering_witness :
    (((fetchPicksCycle true 12 ((List.range 13).map
          (fun i => ⟨i + 1, "", "u", some ⟨none, none, none, some "K", none⟩⟩))).2.filter
        (fun d => d.position == "PICK")).map (fun d => d.playerName)).getLast? =
      some "2026 2.01" ∧
    ((ceilDivNat 13 12 : ℕ) : ℤ) = ⌈(13 : ℚ) / (12 : ℚ)⌉ := by
  have h := C5_rookie_kicker_numbering 12 ((List.range 13).map
    (fun i => ⟨i + 1, "", "u", some ⟨none, none, none, some "K", none⟩⟩)) (by decide)
  constructor
  · rw [h.1]
    decide
  · exact h.2 13 (by decide) (by decide)

end DraftPunk
